import Mathlib

/-!
Verification of the OpenAI-compatible chat protocol adapter
(`packages/core/src/core/openaiCompatibleClient.ts` and the OpenAI-library
client appended in `packages/core/src/config/models.ts`) of the
`daxiondi/gemini-cli` repository.

JavaScript strings are modelled as lists of characters so that every text
operation used by the source (`includes`, `split`, `slice`, `trim`,
`startsWith`, `join`, regex tag matching) is a structurally recursive,
kernel-computable Lean function.
-/

namespace GeminiCli

/-- Text type of the embedding: a JavaScript string as a list of characters. -/
abbrev Str := List Char

/-- Conversion of a Lean string literal into the embedding's text type. -/
def lit (s : String) : Str := s.data

/-- JS `haystack.startsWith(pat)` restricted to the case used by the source,
checked head-on: is `pat` an initial run of the second argument. -/
def startsWithL : Str → Str → Bool
  | [], _ => true
  | _ :: _, [] => false
  | a :: as, b :: bs => a == b && startsWithL as bs

/-- JS `s.includes(pat)`: some contiguous run of `s` equals `pat`. -/
def containsL (pat : Str) : Str → Bool
  | [] => pat.isEmpty
  | c :: rest => startsWithL pat (c :: rest) || containsL pat rest

/-- Splits at the first occurrence of `pat`: returns the text before the
occurrence and the text after it, or `none` when `pat` does not occur. -/
def splitFirstL (pat : Str) : Str → Option (Str × Str)
  | [] => none
  | c :: rest =>
    if startsWithL pat (c :: rest) then some ([], List.drop pat.length (c :: rest))
    else (splitFirstL pat rest).map (fun pr => (c :: pr.1, pr.2))

/-- Fuel-driven worker for `splitL`; the fuel is the length of the scanned
text, each step consumes at least one character. `acc` holds the current
segment reversed. -/
def splitLAux (pat : Str) : Nat → Str → Str → List Str
  | _, acc, [] => [acc.reverse]
  | 0, acc, s => [acc.reverse ++ s]
  | fuel + 1, acc, c :: rest =>
    if startsWithL pat (c :: rest) then
      acc.reverse :: splitLAux pat fuel [] (List.drop (pat.length - 1) rest)
    else
      splitLAux pat fuel (c :: acc) rest

/-- JS `s.split(pat)` for a non-empty separator: the list of segments between
non-overlapping left-to-right occurrences of `pat`. -/
def splitL (s pat : Str) : List Str :=
  if pat.isEmpty then [s] else splitLAux pat s.length [] s

/-- Whitespace test for the characters relevant to `line.trim()` in the
stream decoder (space, tab, carriage return, newline). -/
def isSpaceChar (c : Char) : Bool :=
  c == ' ' || c == '\t' || c == '\r' || c == '\n'

/-- JS `s.trim()`: drop whitespace from both ends. -/
def trimL (s : Str) : Str :=
  ((s.dropWhile isSpaceChar).reverse.dropWhile isSpaceChar).reverse

/-! ## Canonical data model (Gemini-style `contents`/`parts`) -/

/-- Canonical message roles accepted by the adapter. -/
inductive Role
  | user
  | model
  | system
deriving DecidableEq, Repr

/-- Wire (OpenAI-style) message roles produced by the adapter. -/
inductive WireRole
  | user
  | assistant
  | system
deriving DecidableEq, Repr

/-- A canonical content part as the adapter probes it: either it has a `text`
field or it does not (non-text parts are dropped by the translation). -/
inductive CPart
  | text (t : Str)
  | nonText
deriving DecidableEq, Repr

/-- Does the part carry a `text` field (`'text' in part`). -/
def CPart.isTextB : CPart → Bool
  | .text _ => true
  | .nonText => false

/-- The `text` field of a part that has one. -/
def CPart.textOf : CPart → Option Str
  | .text t => some t
  | .nonText => none

/-- A canonical message: `{ role, parts }`. -/
structure CMessage where
  role : Role
  parts : List CPart
deriving DecidableEq, Repr

/-- One entry of `request.contents` after the array coercion: either a bare
string (skipped by the translation loops) or a `Content` object. -/
inductive ContentEntry
  | str (s : Str)
  | msg (m : CMessage)
deriving DecidableEq, Repr

/-- A wire chat message `{ role, content }` as built by
`generateContent`/`generateContentStream` (lines 61-82 / 201-222). -/
structure OpenAIMessage where
  role : WireRole
  content : Str
deriving DecidableEq, Repr

/-- Role translation of line 72: `content.role === 'model' ? 'assistant' :
content.role`. -/
def mapRole : Role → WireRole
  | .model => .assistant
  | .user => .user
  | .system => .system

/-- The `text` fields of the parts having one, in order
(`parts.filter(p => 'text' in p).map(p => p.text)`). -/
def textsOfParts (ps : List CPart) : List Str :=
  ps.filterMap CPart.textOf

/-- Newline join of a message's textual parts
(`.join('\n') || ''`; the join of an empty list is already empty). -/
def joinTexts (ps : List CPart) : Str :=
  List.intercalate (lit "\n") (textsOfParts ps)

/-- Translation of one canonical message (body of the `contents` loop,
lines 67-82): messages whose joined text is empty are dropped
(`if (text) { messages.push(...) }`). -/
def toWireMessage (m : CMessage) : Option OpenAIMessage :=
  let text := joinTexts m.parts
  if text = [] then none else some { role := mapRole m.role, content := text }

/-- Translation of the whole `contents` list (lines 66-82): string entries
are skipped (`typeof content === 'string'`), object entries are translated
by `toWireMessage`. -/
def toWireMessages (entries : List ContentEntry) : List OpenAIMessage :=
  entries.filterMap fun e =>
    match e with
    | .str _ => none
    | .msg m => toWireMessage m

/-! ## Streaming thinking extractor (`createStreamGenerator`, lines 272-361)

The generator keeps three mutable variables across chunks:
`isInThinking`, `thinkingContent` and `mainContent`; each parsed delta
content is handled by the block at lines 306-351, yielding zero or more
partial responses on the `main` or `thinking` channel. -/

/-- Output channel of one streamed partial response. -/
inductive Channel
  | main
  | thinking
deriving DecidableEq, Repr

/-- The per-stream mutable state of `createStreamGenerator`. -/
structure SState where
  isInThinking : Bool
  thinkingContent : Str
  mainContent : Str
deriving DecidableEq, Repr

/-- Initial stream state (lines 283-285). -/
def initState : SState := { isInThinking := false, thinkingContent := [], mainContent := [] }

/-- The opening delimiter token `<thinking>`. -/
def thinkOpenL : Str := lit "<thinking>"

/-- The closing delimiter token `</thinking>`. -/
def thinkCloseL : Str := lit "</thinking>"

/-- One step of the streaming extractor: the handling of a single parsed
delta `content` string (lines 304-351), returning the updated state and
the emitted `(channel, text)` partial responses in order.  Empty content
is a no-op (`if (content)`).  When `includeThoughts` is set, a chunk
containing the opening tag is split there: the part before the tag is
emitted as `main`, the part after it is buffered, state enters thinking;
a chunk containing the closing tag has the part before the tag appended
to the buffer, the whole buffer emitted once as `thinking`, and the part
after the tag emitted as `main`; otherwise the chunk is appended to the
buffer and emitted as `thinking` while inside a thinking span, or appended
to the main accumulator and emitted as `main` outside one. -/
def processStreamContent (includeThoughts : Bool) (st : SState) (content : Str) :
    SState × List (Channel × Str) :=
  if content = [] then (st, [])
  else if includeThoughts && containsL thinkOpenL content then
    let parts := splitL content thinkOpenL
    let p0 := parts.getD 0 []
    let p1 := parts.getD 1 []
    let (m, e0) :=
      if p0 ≠ [] then (st.mainContent ++ p0, [(Channel.main, p0)]) else (st.mainContent, [])
    let tc := if p1 ≠ [] then st.thinkingContent ++ p1 else st.thinkingContent
    ({ isInThinking := true, thinkingContent := tc, mainContent := m }, e0)
  else if includeThoughts && containsL thinkCloseL content then
    let parts := splitL content thinkCloseL
    let p0 := parts.getD 0 []
    let p1 := parts.getD 1 []
    let tc := if p0 ≠ [] then st.thinkingContent ++ p0 else st.thinkingContent
    let (tc2, e1) := if tc ≠ [] then ([], [(Channel.thinking, tc)]) else (tc, [])
    let (m, e2) :=
      if p1 ≠ [] then (st.mainContent ++ p1, [(Channel.main, p1)]) else (st.mainContent, [])
    ({ isInThinking := false, thinkingContent := tc2, mainContent := m }, e1 ++ e2)
  else if st.isInThinking then
    ({ st with thinkingContent := st.thinkingContent ++ content }, [(Channel.thinking, content)])
  else
    ({ st with mainContent := st.mainContent ++ content }, [(Channel.main, content)])

/-- Runs the streaming extractor over a whole sequence of delta contents,
collecting all emissions in order.  When the list is exhausted (stream end
or `[DONE]`) the generator simply stops: whatever remains in
`thinkingContent` is dropped. -/
def processStreamFragments (includeThoughts : Bool) (st : SState) :
    List Str → SState × List (Channel × Str)
  | [] => (st, [])
  | c :: cs =>
    let (st1, e1) := processStreamContent includeThoughts st c
    let (st2, e2) := processStreamFragments includeThoughts st1 cs
    (st2, e1 ++ e2)

/-- The `main`-channel texts of an emission list, in order. -/
def mainsOf (es : List (Channel × Str)) : List Str :=
  es.filterMap fun e => if e.1 = Channel.main then some e.2 else none

/-- The `thinking`-channel texts of an emission list, in order. -/
def thinkingsOf (es : List (Channel × Str)) : List Str :=
  es.filterMap fun e => if e.1 = Channel.thinking then some e.2 else none

/-- One iteration of the SSE line loop (lines 296-355) over already
separated lines: blank lines and lines without the `data: ` marker are
skipped, the `[DONE]` sentinel returns from the generator (dropping the
remaining lines), and each other payload is JSON-decoded by the oracle
`parseDelta` (modelling `JSON.parse` followed by
`parsed.choices?.[0]?.delta?.content || ''`); a decode failure is logged
and skipped, a decoded content string is fed to the extractor. -/
def processStreamLines (parseDelta : Str → Option Str) (includeThoughts : Bool)
    (st : SState) : List Str → SState × List (Channel × Str)
  | [] => (st, [])
  | line :: rest =>
    if trimL line = [] then processStreamLines parseDelta includeThoughts st rest
    else if startsWithL (lit "data: ") line then
      let data := List.drop 6 line
      if data = lit "[DONE]" then (st, [])
      else
        match parseDelta data with
        | none => processStreamLines parseDelta includeThoughts st rest
        | some content =>
          let r1 := processStreamContent includeThoughts st content
          let r2 := processStreamLines parseDelta includeThoughts r1.1 rest
          (r2.1, r1.2 ++ r2.2)
    else processStreamLines parseDelta includeThoughts st rest

/-! ## Whole-response thinking extraction

`generateContent` (lines 141-161) and `extractReasoningContent`
(`models.ts` appended client, lines 221-250) scan the complete answer text
with the regex patterns `/\<thinking\>(.*?)\<\/thinking\>/s`,
`/\*\*思考过程\*\*(.*?)\*\*回答\*\*/s` and `/【思考】(.*?)【回答】/s`, in this
priority order.  A lazy `open(.*?)close` match under `/s` selects the first
occurrence of `open` that is followed by an occurrence of `close`, with the
shortest interior. -/

/-- Scanner for one `open(.*?)close` pattern: walks the text, and at the
first position where `op` starts and `cl` occurs later returns the text
before the match, the interior between the tags, and the text after the
match.  `revPre` carries the scanned text reversed. -/
def matchTagAux (op cl : Str) : Str → Str → Option (Str × Str × Str)
  | _, [] => none
  | revPre, c :: rest =>
    if startsWithL op (c :: rest) then
      match splitFirstL cl (List.drop op.length (c :: rest)) with
      | some (interior, after) => some (revPre.reverse, interior, after)
      | none => matchTagAux op cl (c :: revPre) rest
    else matchTagAux op cl (c :: revPre) rest

/-- The fixed delimiter pairs of `thinkingPatterns`, in priority order. -/
def thinkingPatternsL : List (Str × Str) :=
  [(lit "<thinking>", lit "</thinking>"),
   (lit "**思考过程**", lit "**回答**"),
   (lit "【思考】", lit "【回答】")]

/-- Tries the delimiter pairs in order on the full text; the first pair that
matches yields `(thinking, remaining)`: the trimmed interior and the trimmed
text with the whole matched span removed (`match[1].trim()` and
`responseText.replace(match[0], '').trim()`). -/
def extractThinkingWhole : List (Str × Str) → Str → Option (Str × Str)
  | [], _ => none
  | (op, cl) :: ps, s =>
    match matchTagAux op cl [] s with
    | some (bef, interior, aft) => some (trimL interior, trimL (bef ++ aft))
    | none => extractThinkingWhole ps s

/-! ## Non-streaming response translation -/

/-- Canonical response part: plain text, text tagged `type: 'thinking'`,
or a function call with its parsed argument map. -/
inductive RPart
  | text (t : Str)
  | thinkingText (t : Str)
  | functionCall (name : Str) (args : List (Str × Str))
deriving DecidableEq, Repr

/-- Canonical finish reason written into the candidate. -/
inductive FinishReason
  | STOP
  | OTHER
deriving DecidableEq, Repr

/-- Wire usage block `{prompt_tokens, completion_tokens, total_tokens}`. -/
structure Usage where
  prompt_tokens : Nat
  completion_tokens : Nat
  total_tokens : Nat
deriving DecidableEq, Repr

/-- Canonical candidate response as assembled by the clients. -/
structure CandResponse where
  parts : List RPart
  finishReason : FinishReason
  usage : Option Usage
deriving DecidableEq, Repr

/-- One wire choice of the fetch-based client
(`{message: {content}, finish_reason}`); absent content is the empty
string (`data.choices[0]?.message?.content || ''`). -/
structure SimpleChoice where
  message_content : Str
  finish_reason : Str
deriving DecidableEq, Repr

/-- Non-streaming wire response body of the fetch-based client. -/
structure SimpleWireResponse where
  choices : List SimpleChoice
  usage : Option Usage
deriving DecidableEq, Repr

/-- Response translation of `generateContent` (lines 133-195 of
`openaiCompatibleClient.ts`): optional whole-response thinking extraction,
then the parts list gets a `thinking` part when thinking text is non-empty
and a text part when the remaining text is non-empty; an empty parts list
is replaced by the placeholder `[{ text: responseText }]`; the finish
reason is `STOP` exactly when the wire reason is `"stop"`. -/
def translateResponse (includeThoughts : Bool) (data : SimpleWireResponse) : CandResponse :=
  let responseText := ((data.choices.head?).map SimpleChoice.message_content).getD []
  let pair :=
    if includeThoughts && responseText ≠ [] then
      match extractThinkingWhole thinkingPatternsL responseText with
      | some (th, rem) => (th, rem)
      | none => ([], responseText)
    else ([], responseText)
  let thinkingContent := pair.1
  let mainText := pair.2
  let parts :=
    (if thinkingContent ≠ [] then [RPart.thinkingText thinkingContent] else []) ++
    (if mainText ≠ [] then [RPart.text mainText] else [])
  { parts := if parts.length > 0 then parts else [RPart.text mainText],
    finishReason :=
      if ((data.choices.head?).map SimpleChoice.finish_reason).getD [] = lit "stop" then
        FinishReason.STOP
      else FinishReason.OTHER,
    usage := data.usage }

/-! ## OpenAI-library client (second document appended in
`packages/core/src/config/models.ts`, also distributed as
`openaiCompatibleClient.ts` with tool support)

This client handles tool calls: `safeParseJSON` (lines 208-215), the
`reasoning_content`-aware `extractReasoningContent` (lines 217-250) and the
tool-call branch of `generateContent` (lines 473-510). -/

/-- Argument map of a parsed tool call (JSON object as key/value pairs). -/
abbrev ArgMap := List (Str × Str)

/-- `safeParseJSON(jsonString)`: `JSON.parse` — modelled by the oracle
`parse` — with a fallback to the empty object `{}` when parsing throws. -/
def safeParseJSON (parse : Str → Option ArgMap) (jsonString : Str) : ArgMap :=
  (parse jsonString).getD []

/-- One wire tool call `{function: {name, arguments}}`. -/
structure ToolCall where
  name : Str
  arguments : Str
deriving DecidableEq, Repr

/-- One wire choice of the OpenAI-library client: message content
(`|| ''`), the Doubao `reasoning_content` field (`|| ''`), tool calls and
the finish reason. -/
structure RichChoice where
  message_content : Str
  reasoning_content : Str
  tool_calls : List ToolCall
  finish_reason : Str
deriving DecidableEq, Repr

/-- `extractReasoningContent(choice)` (lines 217-250): a non-empty
`reasoning_content` field takes priority; otherwise the delimiter patterns
are tried on the main content; otherwise the reasoning is empty.  Returns
`(content, reasoning)`. -/
def extractReasoningContent (choice : RichChoice) : Str × Str :=
  let mainContent := choice.message_content
  if choice.reasoning_content ≠ [] then (mainContent, choice.reasoning_content)
  else if mainContent ≠ [] then
    match extractThinkingWhole thinkingPatternsL mainContent with
    | some (th, rem) => (rem, th)
    | none => (mainContent, [])
  else (mainContent, [])

/-- The argument string handed to `safeParseJSON`:
`toolCall.function.arguments || '{}'`. -/
def toolCallArgString (tc : ToolCall) : Str :=
  if tc.arguments = [] then lit "\x7b\x7d" else tc.arguments

/-- Translation of one wire choice by the OpenAI-library client
(lines 473-545).  A choice with tool calls becomes one `functionCall` part
per call — name copied, argument string parsed by `safeParseJSON` — with
finish reason forced to `STOP`; otherwise reasoning extraction runs and
text/thinking parts are assembled as in the fetch-based client, with the
finish reason mapped from the wire value. -/
def translateRichChoice (parse : Str → Option ArgMap) (choice : RichChoice)
    (usage : Option Usage) : CandResponse :=
  if choice.tool_calls.length > 0 then
    { parts := choice.tool_calls.map fun tc =>
        RPart.functionCall tc.name (safeParseJSON parse (toolCallArgString tc)),
      finishReason := FinishReason.STOP,
      usage := usage }
  else
    let pair := extractReasoningContent choice
    let responseText := pair.1
    let thinkingContent := pair.2
    let parts :=
      (if thinkingContent ≠ [] then [RPart.thinkingText thinkingContent] else []) ++
      (if responseText ≠ [] then [RPart.text responseText] else [])
    { parts := if parts.length > 0 then parts else [RPart.text responseText],
      finishReason :=
        if choice.finish_reason = lit "stop" then FinishReason.STOP else FinishReason.OTHER,
      usage := usage }

/-- Non-streaming response translation of the OpenAI-library client: a
response without choices raises `No choices returned from API`
(lines 466-469). -/
def translateRichResponse (parse : Str → Option ArgMap) (choices : List RichChoice)
    (usage : Option Usage) : Except Str CandResponse :=
  match choices.head? with
  | none => Except.error (lit "No choices returned from API")
  | some choice => Except.ok (translateRichChoice parse choice usage)

/-! ## Token accounting (`countTokens`, lines 381-400 of
`openaiCompatibleClient.ts`) -/

/-- The text assembled by the fallback estimator: the `text` fields of all
parts of all object entries, joined with a single space
(`.flatMap(...).filter(...).map(...).join(' ')`). -/
def tokenText (entries : List ContentEntry) : Str :=
  List.intercalate (lit " ")
    ((entries.filterMap fun e =>
        match e with
        | .str _ => none
        | .msg m => some m).flatMap fun m => textsOfParts m.parts)

/-- `Math.ceil(n * 0.25)` on a character count. -/
def ceilQuarter (n : Nat) : Nat :=
  Nat.ceil ((n : ℚ) * (1 / 4))

/-- The token estimate `Math.ceil(text.length * 0.25)` (line 395). -/
def countTokensEstimate (entries : List ContentEntry) : Nat :=
  ceilQuarter (tokenText entries).length

/-- The total character count over all textual parts of the input, as the
claim words it: the sum of the lengths of the `text` fields, with no
join separators.  Stated for comparison with `countTokensEstimate`. -/
def totalTextChars (entries : List ContentEntry) : Nat :=
  ((entries.filterMap fun e =>
      match e with
      | .str _ => none
      | .msg m => some m).flatMap fun m => textsOfParts m.parts).foldl
    (fun acc t => acc + t.length) 0

/-! ## Request body construction and embedContent -/

/-- The model configuration (`ModelConfig` in `models.ts`): `baseUrl` and
`embeddingModel` are optional, and an empty-string `embeddingModel` (the
Anthropic default) is as good as an absent one for the falsy test. -/
structure ModelConfig where
  provider : Str
  model : Str
  apiKey : Str
  baseUrl : Option Str
  thinkSupport : Bool
  embeddingModel : Option Str
deriving DecidableEq, Repr

/-- The generation-config fields read when building a request body. -/
structure GenerationConfig where
  temperature : Option ℚ
  maxOutputTokens : Option Nat
deriving DecidableEq, Repr

/-- JS `v || d` for an optional number: an absent value and an explicit `0`
both select the default. -/
def jsOrQ (v : Option ℚ) (d : ℚ) : ℚ :=
  match v with
  | none => d
  | some x => if x = 0 then d else x

/-- JS `v || d` for an optional integer count. -/
def jsOrNat (v : Option Nat) (d : Nat) : Nat :=
  match v with
  | none => d
  | some x => if x = 0 then d else x

/-- Wire request body `{model, messages, temperature, max_tokens, stream}`
plus the conditional `include_reasoning` flag. -/
structure RequestBody where
  model : Str
  messages : List OpenAIMessage
  temperature : ℚ
  max_tokens : Nat
  stream : Bool
  include_reasoning : Bool
deriving DecidableEq, Repr

/-- Request-body construction shared by `generateContent` (lines 97-114)
and `generateContentStream` (lines 236-250):
`temperature: request.config?.temperature || 0.7`,
`max_tokens: request.config?.maxOutputTokens || 2048`, and
`include_reasoning` added when thoughts are requested and the configured
model name contains `thinking`. -/
def buildRequestBody (cfg : ModelConfig) (msgs : List OpenAIMessage)
    (config : Option GenerationConfig) (includeThoughts : Bool)
    (stream : Bool) : RequestBody :=
  { model := cfg.model,
    messages := msgs,
    temperature := jsOrQ (config.bind GenerationConfig.temperature) (7 / 10),
    max_tokens := jsOrNat (config.bind GenerationConfig.maxOutputTokens) 2048,
    stream := stream,
    include_reasoning := includeThoughts && containsL (lit "thinking") cfg.model }

/-- Failure modes of `embedContent`: the missing-configuration error thrown
before any request (lines 403-405) versus the transport error thrown on a
non-2xx response (lines 419-421). -/
inductive EmbedError
  | notConfigured (message : Str)
  | http (status : Nat) (statusText : Str)
deriving DecidableEq, Repr

/-- JS falsy test on `this.config.embeddingModel`: absent or empty. -/
def jsFalsyStr : Option Str → Bool
  | none => true
  | some s => s.isEmpty

/-- One item of the wire embedding response (`{embedding: [...]}`),
component values modelled as rationals. -/
structure EmbeddingItem where
  embedding : List ℚ
deriving DecidableEq, Repr

/-- Outcome of the HTTP POST to `{baseUrl}/embeddings`, supplied as an
oracle so that the guard's independence from the transport is expressible. -/
structure FetchOutcome where
  ok : Bool
  status : Nat
  statusText : Str
  data : List EmbeddingItem
deriving DecidableEq, Repr

/-- `embedContent` (lines 402-430): without a configured embedding model it
throws `Embedding model not configured for provider: <provider>` before
any fetch; otherwise a non-2xx response becomes an HTTP error and a good
response is mapped to its embedding vectors. -/
def embedContent (cfg : ModelConfig) (fetch : FetchOutcome) :
    Except EmbedError (List (List ℚ)) :=
  if jsFalsyStr cfg.embeddingModel then
    Except.error (EmbedError.notConfigured
      (lit "Embedding model not configured for provider: " ++ cfg.provider))
  else if !fetch.ok then
    Except.error (EmbedError.http fetch.status fetch.statusText)
  else
    Except.ok (fetch.data.map EmbeddingItem.embedding)

/-- Modelled from the spec: the source has no wire→canonical translation
for chat messages (it only translates response choices), so the inverse
direction of the §4.1 round-trip is taken from the spec's words —
`assistant` maps back to `model`, `user` and `system` pass through. -/
def unmapRole : WireRole → Role
  | .assistant => .model
  | .user => .user
  | .system => .system

/-- Modelled from the spec: the wire→canonical inverse for a message list —
each wire message's content becomes a single canonical text part and its
role is mapped back by `unmapRole` (spec §4.1 and §8, round-trip of text
content). -/
def fromWireMessages (ws : List OpenAIMessage) : List CMessage :=
  ws.map fun w => { role := unmapRole w.role, parts := [CPart.text w.content] }

/-! ## Helper lemmas -/

theorem unmapRole_mapRole (r : Role) : unmapRole (mapRole r) = r := by
  cases r <;> rfl

theorem ceilQuarter_mono {m n : Nat} (h : m ≤ n) : ceilQuarter m ≤ ceilQuarter n := by
  unfold ceilQuarter
  gcongr

theorem ceilQuarter_four : ceilQuarter 4 = 1 := by
  unfold ceilQuarter
  norm_num

theorem ceilQuarter_five : ceilQuarter 5 = 2 := by
  unfold ceilQuarter
  rw [Nat.ceil_eq_iff (by norm_num)]
  norm_num

/-! ## Claim theorems -/

/-- Claim C1 counterexample: the spec's own scenario — fragments
`["Let me <thi", "nking>rea", "son</thinking> done"]` — does not yield
main emissions `"Let me "`, `" done"` and thinking emission `"reason"`:
the split delimiter is never recognized, the first two fragments are
emitted verbatim on the main channel, and the thinking channel receives
only `"son"`. -/
theorem stream_split_delimiter_counterexample :
    processStreamFragments true initState
      [lit "Let me <thi", lit "nking>rea", lit "son</thinking> done"] =
      ({ isInThinking := false, thinkingContent := [],
         mainContent := lit "Let me <thinking>rea done" },
       [(Channel.main, lit "Let me <thi"), (Channel.main, lit "nking>rea"),
        (Channel.thinking, lit "son"), (Channel.main, lit " done")]) ∧
    mainsOf (processStreamFragments true initState
      [lit "Let me <thi", lit "nking>rea", lit "son</thinking> done"]).2 ≠
      [lit "Let me ", lit " done"] ∧
    thinkingsOf (processStreamFragments true initState
      [lit "Let me <thi", lit "nking>rea", lit "son</thinking> done"]).2 ≠
      [lit "reason"] := by
  decide

/-- Claim C1 (amended): while inside a thinking span, a fragment containing
neither delimiter token is appended to the buffer and also emitted
immediately on the thinking channel — it is not merely buffered.
Delimiters split across fragments are not recognized; when both delimiters
arrive unsplit, the canonical scenario yields main emissions `"Let me "`
and `" done"` — whose concatenation is the answer with the span removed —
and thinking emissions `"son"` then `"reason"`, the final full-buffer
emission reproducing the span's interior (interior fragments after the
opening one therefore appear twice). -/
theorem stream_inside_think_emits_and_unsplit_scenario :
    (∀ (st : SState) (c : Str), st.isInThinking = true →
      containsL thinkOpenL c = false → containsL thinkCloseL c = false → c ≠ [] →
      processStreamContent true st c =
        ({ st with thinkingContent := st.thinkingContent ++ c },
         [(Channel.thinking, c)])) ∧
    processStreamFragments true initState
      [lit "Let me <thinking>rea", lit "son", lit "</thinking> done"] =
      ({ isInThinking := false, thinkingContent := [], mainContent := lit "Let me  done" },
       [(Channel.main, lit "Let me "), (Channel.thinking, lit "son"),
        (Channel.thinking, lit "reason"), (Channel.main, lit " done")]) := by
  constructor
  · intro st c h1 h2 h3 h4
    simp [processStreamContent, h1, h2, h3, h4]
  · decide

/-- Witness for the amended C1 theorem at a concrete inside-thinking state
and fragment. -/
theorem stream_inside_think_emits_witness :
    processStreamContent true
      { isInThinking := true, thinkingContent := [], mainContent := [] } (lit "ason") =
      ({ isInThinking := true, thinkingContent := lit "ason", mainContent := [] },
       [(Channel.thinking, lit "ason")]) := by
  have h := stream_inside_think_emits_and_unsplit_scenario.1
    { isInThinking := true, thinkingContent := [], mainContent := [] } (lit "ason")
    rfl (by decide) (by decide) (by decide)
  simpa using h

/-- Claim C2 counterexample: for the unterminated stream
`["<thinking>a", "b"]` the decoder does emit on the thinking channel — the
interior fragment `"b"` is emitted as it arrives — contradicting "no
thinking-channel emission for that span". -/
theorem stream_unterminated_span_counterexample :
    thinkingsOf (processStreamFragments true initState
      [lit "<thinking>a", lit "b"]).2 = [lit "b"] ∧
    thinkingsOf (processStreamFragments true initState
      [lit "<thinking>a", lit "b"]).2 ≠ [] := by
  decide

/-- Claim C2 (amended): at stream end the extractor emits nothing further —
whatever remains in the thinking buffer is discarded, never flushed, and
the decoder terminates normally; but fragments arriving after the opening
delimiter are emitted on the thinking channel as they arrive, so an
unterminated span can still produce per-fragment thinking emissions (here
`"b"`, while the discarded buffer holds `"ab"`). -/
theorem stream_end_discards_buffer :
    (∀ (includeThoughts : Bool) (st : SState),
      processStreamFragments includeThoughts st [] = (st, [])) ∧
    processStreamFragments true initState [lit "<thinking>a", lit "b"] =
      ({ isInThinking := true, thinkingContent := lit "ab", mainContent := [] },
       [(Channel.thinking, lit "b")]) :=
  ⟨fun _ _ => rfl, by decide⟩

/-- Claim C3 counterexample: a wire response with no tool calls and empty
message content does not produce an empty part list — the translation
substitutes the placeholder `[{ text: '' }]`. -/
theorem empty_content_counterexample :
    (translateResponse false
      { choices := [{ message_content := [], finish_reason := lit "stop" }],
        usage := none }).parts = [RPart.text []] ∧
    (translateResponse false
      { choices := [{ message_content := [], finish_reason := lit "stop" }],
        usage := none }).parts ≠ ([] : List RPart) := by
  decide

/-- Claim C3 (amended): a non-streaming wire response with no tool calls
and empty (or absent) message content yields a part list containing
exactly one placeholder text part with empty text — not an error, but not
an empty part list either. -/
theorem empty_content_placeholder :
    ∀ (includeThoughts : Bool) (fr : Str) (u : Option Usage),
      (translateResponse includeThoughts
        { choices := [{ message_content := [], finish_reason := fr }],
          usage := u }).parts = [RPart.text []] ∧
      (translateResponse includeThoughts { choices := [], usage := u }).parts =
        [RPart.text []] := by
  intro it fr u
  constructor <;> simp [translateResponse]

/-- Claim C4: the canonical finish reason of the tool-capable client is
`STOP` exactly when the wire `finish_reason` is `"stop"` (and `OTHER` for
any other value) when the choice has no tool calls, and is forced to
`STOP` regardless of the wire value whenever the choice carries at least
one tool call. -/
theorem finish_reason_mapping :
    ∀ (parse : Str → Option ArgMap) (choice : RichChoice) (u : Option Usage),
      (choice.tool_calls ≠ [] →
        (translateRichChoice parse choice u).finishReason = FinishReason.STOP) ∧
      (choice.tool_calls = [] →
        ((translateRichChoice parse choice u).finishReason = FinishReason.STOP ↔
          choice.finish_reason = lit "stop")) := by
  intro parse choice u
  constructor
  · intro h
    have hl : 0 < choice.tool_calls.length := List.length_pos.mpr h
    simp [translateRichChoice, hl]
  · intro h
    by_cases hs : choice.finish_reason = lit "stop" <;>
      simp [translateRichChoice, h, hs]

/-- Witness for C4: a choice carrying one tool call and wire finish reason
`"tool_calls"` still maps to canonical `STOP`. -/
theorem finish_reason_mapping_witness :
    (translateRichChoice (fun _ => none)
      { message_content := [], reasoning_content := [],
        tool_calls := [{ name := lit "run", arguments := lit "nope" }],
        finish_reason := lit "tool_calls" } none).finishReason = FinishReason.STOP :=
  (finish_reason_mapping (fun _ => none)
    { message_content := [], reasoning_content := [],
      tool_calls := [{ name := lit "run", arguments := lit "nope" }],
      finish_reason := lit "tool_calls" } none).1 (by decide)

/-- Claim C5: a wire choice with tool calls is translated into exactly one
`functionCall` part per call, carrying the call's name and its argument
string parsed by `safeParseJSON`; an argument string the JSON oracle
rejects yields the empty argument map, and the call is surfaced all the
same. -/
theorem tool_calls_translation :
    ∀ (parse : Str → Option ArgMap) (choice : RichChoice) (u : Option Usage),
      choice.tool_calls ≠ [] →
      (translateRichChoice parse choice u).parts =
        choice.tool_calls.map (fun tc =>
          RPart.functionCall tc.name (safeParseJSON parse (toolCallArgString tc))) ∧
      (translateRichChoice parse choice u).parts.length =
        choice.tool_calls.length ∧
      (∀ s, parse s = none → safeParseJSON parse s = []) := by
  intro parse choice u h
  have hl : 0 < choice.tool_calls.length := List.length_pos.mpr h
  refine ⟨?_, ?_, ?_⟩
  · simp [translateRichChoice, hl]
  · simp [translateRichChoice, hl]
  · intro s hs
    simp [safeParseJSON, hs]

/-- Witness for C5: one tool call with an unparseable argument string
surfaces as one `functionCall` part with an empty argument map. -/
theorem tool_calls_translation_witness :
    (translateRichChoice (fun _ => none)
      { message_content := [], reasoning_content := [],
        tool_calls := [{ name := lit "run_shell_command", arguments := lit "not json" }],
        finish_reason := lit "stop" } none).parts =
      [RPart.functionCall (lit "run_shell_command") []] := by
  have h := tool_calls_translation (fun _ => none)
    { message_content := [], reasoning_content := [],
      tool_calls := [{ name := lit "run_shell_command", arguments := lit "not json" }],
      finish_reason := lit "stop" } none (by decide)
  rw [h.1]
  decide

/-- Claim C6: a `data:` record whose payload the JSON oracle rejects is
skipped without terminating the stream — deleting it from the line
sequence does not change the decoder's output, so every valid record
before and after it is still delivered. -/
theorem malformed_record_skipped :
    ∀ (parseDelta : Str → Option Str) (includeThoughts : Bool) (st : SState)
      (bad : Str) (pre suf : List Str),
      trimL bad ≠ [] → startsWithL (lit "data: ") bad = true →
      List.drop 6 bad ≠ lit "[DONE]" → parseDelta (List.drop 6 bad) = none →
      processStreamLines parseDelta includeThoughts st (pre ++ bad :: suf) =
        processStreamLines parseDelta includeThoughts st (pre ++ suf) := by
  intro parseDelta it st bad pre suf h1 h2 h3 h4
  induction pre generalizing st with
  | nil =>
    simp only [List.nil_append]
    rw [processStreamLines]
    simp [h1, h2, h3, h4]
  | cons l pre ih =>
    simp only [List.cons_append]
    rw [processStreamLines, processStreamLines]
    by_cases hb : trimL l = []
    · simp only [if_pos hb]
      exact ih st
    · simp only [if_neg hb]
      by_cases hd : startsWithL (lit "data: ") l = true
      · simp only [hd, if_true]
        by_cases hdone : List.drop 6 l = lit "[DONE]"
        · simp only [if_pos hdone]
        · simp only [if_neg hdone]
          cases hp : parseDelta (List.drop 6 l) with
          | none => exact ih _
          | some content =>
            simp only []
            rw [ih]
      · simp only [hd]
        simp only [Bool.false_eq_true, if_false]
        exact ih _

/-- Witness for C6: with a concrete oracle rejecting the payload `oops`,
the malformed middle record is skipped and both surrounding records are
delivered on the main channel. -/
theorem malformed_record_skipped_witness :
    processStreamLines (fun s => if s = lit "oops" then none else some s) false initState
      [lit "data: one", lit "data: oops", lit "data: two"] =
      processStreamLines (fun s => if s = lit "oops" then none else some s) false initState
      [lit "data: one", lit "data: two"] ∧
    processStreamLines (fun s => if s = lit "oops" then none else some s) false initState
      [lit "data: one", lit "data: oops", lit "data: two"] =
      ({ isInThinking := false, thinkingContent := [], mainContent := lit "onetwo" },
       [(Channel.main, lit "one"), (Channel.main, lit "two")]) :=
  ⟨malformed_record_skipped (fun s => if s = lit "oops" then none else some s) false
      initState (lit "data: oops") [lit "data: one"] [lit "data: two"]
      (by decide) (by decide) (by decide) (by decide),
   by decide⟩

/-- Claim C7 counterexample: the estimator measures the space-joined text,
not the bare sum of part lengths — two inputs whose textual parts total
the same four characters get different estimates (two parts `"ab"`,`"cd"`
join to five characters, estimate 2; one part `"abcd"` stays at four,
estimate 1), so the estimate is not monotone in the total part character
count. -/
theorem countTokens_total_chars_counterexample :
    totalTextChars [ContentEntry.msg
      { role := Role.user, parts := [CPart.text (lit "ab"), CPart.text (lit "cd")] }] ≤
      totalTextChars [ContentEntry.msg
        { role := Role.user, parts := [CPart.text (lit "abcd")] }] ∧
    countTokensEstimate [ContentEntry.msg
      { role := Role.user, parts := [CPart.text (lit "abcd")] }] <
      countTokensEstimate [ContentEntry.msg
        { role := Role.user, parts := [CPart.text (lit "ab"), CPart.text (lit "cd")] }] := by
  constructor
  · decide
  · have h1 : (tokenText [ContentEntry.msg
        { role := Role.user, parts := [CPart.text (lit "ab"), CPart.text (lit "cd")] }]).length = 5 := by
      decide
    have h2 : (tokenText [ContentEntry.msg
        { role := Role.user, parts := [CPart.text (lit "abcd")] }]).length = 4 := by
      decide
    unfold countTokensEstimate
    rw [h1, h2, ceilQuarter_four, ceilQuarter_five]
    norm_num

/-- Claim C7 (amended): the fallback estimate is
`ceil(0.25 × length of the single-space join of all textual parts)`, and
it is monotonically non-decreasing in that joined length. -/
theorem countTokens_monotone_in_joined_length :
    ∀ (e1 e2 : List ContentEntry),
      (tokenText e1).length ≤ (tokenText e2).length →
      countTokensEstimate e1 ≤ countTokensEstimate e2 := by
  intro e1 e2 h
  exact ceilQuarter_mono h

/-- Witness for the amended C7 theorem at two concrete inputs. -/
theorem countTokens_monotone_witness :
    countTokensEstimate [ContentEntry.msg
      { role := Role.user, parts := [CPart.text (lit "hi")] }] ≤
      countTokensEstimate [ContentEntry.msg
        { role := Role.user, parts := [CPart.text (lit "hello")] }] :=
  countTokens_monotone_in_joined_length _ _ (by decide)

/-- Claim C8 counterexample: a canonical message whose only part is an
empty text part is dropped by `toWire` (the falsy-text guard), so the
round trip loses the whole message — role included. -/
theorem round_trip_counterexample :
    fromWireMessages (toWireMessages
      [ContentEntry.msg { role := Role.user, parts := [CPart.text []] }]) = [] ∧
    fromWireMessages (toWireMessages
      [ContentEntry.msg { role := Role.user, parts := [CPart.text []] }]) ≠
      [{ role := Role.user, parts := [CPart.text []] }] := by
  decide

/-- Claim C8 (amended): for message lists whose parts are all text parts
and whose newline-joined text is non-empty, the round trip preserves
message count, order and roles (model↔assistant), and each message comes
back as a single text part holding the newline-join of its original part
texts — exact for single-part messages, newline-merged for multi-part
ones. -/
theorem round_trip_nonempty_text_messages :
    ∀ (ms : List CMessage),
      (∀ m ∈ ms, (∀ p ∈ m.parts, p.isTextB = true) ∧ joinTexts m.parts ≠ []) →
      fromWireMessages (toWireMessages (ms.map ContentEntry.msg)) =
        ms.map (fun m => { role := m.role, parts := [CPart.text (joinTexts m.parts)] }) := by
  intro ms h
  induction ms with
  | nil => rfl
  | cons m rest ih =>
    have hm := h m (List.mem_cons_self m rest)
    have hw : toWireMessage m =
        some { role := mapRole m.role, content := joinTexts m.parts } := by
      unfold toWireMessage
      simp [hm.2]
    have ih2 := ih fun x hx => h x (List.mem_cons_of_mem m hx)
    simp only [toWireMessages, fromWireMessages, List.filterMap_map] at ih2
    simp only [List.map_cons, toWireMessages, fromWireMessages, List.filterMap_cons,
      List.filterMap_map, hw, unmapRole_mapRole]
    rw [ih2]

/-- Witness for the amended C8 theorem on a concrete single-part list. -/
theorem round_trip_witness :
    fromWireMessages (toWireMessages
      ([{ role := Role.model, parts := [CPart.text (lit "hi")] }].map ContentEntry.msg)) =
      [{ role := Role.model, parts := [CPart.text (joinTexts [CPart.text (lit "hi")])] }] :=
  round_trip_nonempty_text_messages
    [{ role := Role.model, parts := [CPart.text (lit "hi")] }] (by decide)

/-- Claim C9: with no (or an empty) embedding model configured,
`embedContent` fails with the explicit not-configured error naming the
provider, independently of any transport outcome (no HTTP call is
needed), and the failure is distinguishable from every transport error. -/
theorem embed_not_configured_fails_fast :
    ∀ (cfg : ModelConfig) (fetch fetch2 : FetchOutcome),
      jsFalsyStr cfg.embeddingModel = true →
      embedContent cfg fetch =
        Except.error (EmbedError.notConfigured
          (lit "Embedding model not configured for provider: " ++ cfg.provider)) ∧
      embedContent cfg fetch = embedContent cfg fetch2 ∧
      ∀ (status : Nat) (statusText : Str),
        embedContent cfg fetch ≠ Except.error (EmbedError.http status statusText) := by
  intro cfg fetch fetch2 h
  refine ⟨?_, ?_, ?_⟩ <;> simp [embedContent, h]

/-- Witness for C9: the Anthropic-style configuration (empty embedding
model) fails fast even when the transport would have succeeded. -/
theorem embed_not_configured_witness :
    embedContent
      { provider := lit "anthropic", model := lit "claude-3-5-sonnet-20241022",
        apiKey := [], baseUrl := some (lit "https://api.anthropic.com"),
        thinkSupport := false, embeddingModel := some [] }
      { ok := true, status := 200, statusText := [], data := [] } =
      Except.error (EmbedError.notConfigured
        (lit "Embedding model not configured for provider: " ++ lit "anthropic")) :=
  (embed_not_configured_fails_fast
    { provider := lit "anthropic", model := lit "claude-3-5-sonnet-20241022",
      apiKey := [], baseUrl := some (lit "https://api.anthropic.com"),
      thinkSupport := false, embeddingModel := some [] }
    { ok := true, status := 200, statusText := [], data := [] }
    { ok := true, status := 200, statusText := [], data := [] } (by decide)).1

/-- Claim C10: an explicit zero temperature or zero `maxOutputTokens` is
replaced by the defaults 0.7 / 2048 by the falsy-or defaulting, and the
resulting wire body is identical to the one built from an absent value. -/
theorem zero_generation_config_uses_defaults :
    ∀ (cfg : ModelConfig) (msgs : List OpenAIMessage)
      (includeThoughts stream : Bool) (tp : Option ℚ) (mt : Option Nat),
      (buildRequestBody cfg msgs (some { temperature := some 0, maxOutputTokens := mt })
        includeThoughts stream).temperature = 7 / 10 ∧
      buildRequestBody cfg msgs (some { temperature := some 0, maxOutputTokens := mt })
        includeThoughts stream =
        buildRequestBody cfg msgs (some { temperature := none, maxOutputTokens := mt })
          includeThoughts stream ∧
      (buildRequestBody cfg msgs (some { temperature := tp, maxOutputTokens := some 0 })
        includeThoughts stream).max_tokens = 2048 ∧
      buildRequestBody cfg msgs (some { temperature := tp, maxOutputTokens := some 0 })
        includeThoughts stream =
        buildRequestBody cfg msgs (some { temperature := tp, maxOutputTokens := none })
          includeThoughts stream := by
  intro cfg msgs it strm tp mt
  refine ⟨?_, ?_, ?_, ?_⟩ <;> simp [buildRequestBody, jsOrQ, jsOrNat]

end GeminiCli
